import Mathlib

/-!
# Verification of the instrument server's concurrency core (src/app.py)

Shallow embedding of the hardware-service program:

* `HardwareWorker` (app.py:154-230): a single background thread owning the
  device handles, executing jobs pulled FIFO from `job_queue`; `submit`
  enqueues `(job_fn, q)` with a fresh one-slot result queue and blocks with a
  deadline.  Modelled as a labelled transition system `WStep` over `WSys`.
* The per-client countrate stream (`countrate_worker`, `cr_config`,
  `stop_stream`, app.py:538-643): modelled as the LTS `CRStep` over `CRSess`.
  Note that `countrate_worker` measures with `Countrate(hw.tagger, ...)`
  directly on its own thread (app.py:592-594), *not* through `hw.submit`;
  the worker model therefore also contains a direct-access stream thread.
* The status broadcasters (`laser_broadcaster` / `timetagger_broadcaster`,
  app.py:451-500, structurally identical): modelled as the LTS `BStep`.
* The response/event payloads built at each emission site: modelled as
  key-value lists (`JObj`), with Python dict-merge (later key wins) lookup.
-/

namespace HardwareService

/-! ## Hardware worker model (app.py:154-230) -/

/-- A Python value travelling through a rendezvous result queue: either an
ordinary value or an `Exception` instance.  `submit` re-raises the latter
(`isinstance(result, Exception)`, app.py:224-225). -/
inductive PyVal where
  | norm (n : ℕ)
  | excInst (e : ℕ)
deriving DecidableEq, Repr

/-- Outcome of running a job body on the worker thread: a normal return or a
raised exception (caught at app.py:198-200). -/
inductive JobOutcome where
  | ret (v : PyVal)
  | raised (e : ℕ)
deriving DecidableEq, Repr

/-- What the worker loop puts into the job's result queue:
`result_q.put(job_fn(self))` on success, `result_q.put(exc)` on exception
(app.py:196-200). -/
def slotValue : JobOutcome → PyVal
  | .ret v => v
  | .raised e => .excInst e

/-- State of a caller of `HardwareWorker.submit`.  Each caller in the model
submits at most one job; its job shares the caller's identifier. -/
inductive CallerSt where
  | notSubmitted
  | waiting
  | gotVal (n : ℕ)
  | gotExc (e : ℕ)
  | timedOut
deriving DecidableEq, Repr

/-- The one-slot rendezvous queue created by `submit` (app.py:217). -/
inductive SlotSt where
  | empty
  | filled (v : PyVal)
deriving DecidableEq, Repr

/-- Program counter of the single worker thread (`HardwareWorker._run`):
idle between `job_queue.get()` calls, or running a dequeued job whose
outcome is `out`. -/
inductive WPC where
  | idle
  | running (c : ℕ) (out : JobOutcome)
deriving DecidableEq, Repr

/-- Program counter of a streaming worker thread (`countrate_worker`),
which touches `hw.tagger` directly (app.py:592-594) without going through
`submit`. -/
inductive StPC where
  | stIdle
  | stMeasuring
deriving DecidableEq, Repr

/-- The whole worker system: FIFO job queue (caller ids), abstract hardware
state, the worker thread, the per-job result slots, the callers, and the
direct-access stream thread. -/
structure WSys where
  queue : List ℕ
  hwst : ℕ
  wpc : WPC
  slots : ℕ → SlotSt
  callers : ℕ → CallerSt
  stpc : StPC

/-- How `submit` interprets a slot value (app.py:224-226): an `Exception`
instance is re-raised, anything else is returned. -/
def recvResult : PyVal → CallerSt
  | .norm n => .gotVal n
  | .excInst e => .gotExc e

/-- Transition labels of the worker system. -/
inductive WLabel where
  | submitReq (c : ℕ)
  | jobStart (c : ℕ)
  | jobEnd (c : ℕ)
  | recv (c : ℕ)
  | timeoutFire (c : ℕ)
  | streamStart
  | streamEnd
deriving DecidableEq, Repr

/-- Small-step semantics of the worker system, parameterised by the job
environment `J` (caller id → hardware state → new hardware state × outcome).

* `submitStep`: `submit` creates the fresh slot and enqueues (app.py:217-218).
* `startStep`: the worker dequeues the front request (app.py:195) and begins
  executing the job against the device.
* `endStep`: the job finishes; the worker puts the outcome (or the caught
  exception) into the job's slot (app.py:196-200) and loops.
* `recvStep`: the caller's `q.get(timeout)` returns the slot value, which
  `submit` re-raises if it is an `Exception` instance (app.py:220-226).
* `timeoutStep`: `q.get` can raise `Empty` only while the slot is still
  empty, upon which `submit` raises `TimeoutError` (app.py:221-222).
* `streamStartStep`/`streamEndStep`: a streaming worker thread performs a
  measurement directly on `hw.tagger` (app.py:592-594), independent of the
  worker loop. -/
inductive WStep (J : ℕ → ℕ → ℕ × JobOutcome) : WSys → WLabel → WSys → Prop where
  | submitStep (s : WSys) (c : ℕ) :
      s.callers c = .notSubmitted →
      WStep J s (.submitReq c)
        { s with queue := s.queue ++ [c],
                 callers := Function.update s.callers c .waiting }
  | startStep (s : WSys) (c : ℕ) (rest : List ℕ) :
      s.queue = c :: rest →
      s.wpc = .idle →
      WStep J s (.jobStart c)
        { s with queue := rest,
                 hwst := (J c s.hwst).1,
                 wpc := .running c (J c s.hwst).2 }
  | endStep (s : WSys) (c : ℕ) (out : JobOutcome) :
      s.wpc = .running c out →
      WStep J s (.jobEnd c)
        { s with wpc := .idle,
                 slots := Function.update s.slots c (.filled (slotValue out)) }
  | recvStep (s : WSys) (c : ℕ) (v : PyVal) :
      s.callers c = .waiting →
      s.slots c = .filled v →
      WStep J s (.recv c)
        { s with callers := Function.update s.callers c (recvResult v) }
  | timeoutStep (s : WSys) (c : ℕ) :
      s.callers c = .waiting →
      s.slots c = .empty →
      WStep J s (.timeoutFire c)
        { s with callers := Function.update s.callers c .timedOut }
  | streamStartStep (s : WSys) :
      s.stpc = .stIdle →
      WStep J s .streamStart { s with stpc := .stMeasuring }
  | streamEndStep (s : WSys) :
      s.stpc = .stMeasuring →
      WStep J s .streamEnd { s with stpc := .stIdle }

/-- Multi-step reachability with its trace of labels. -/
inductive WReach (J : ℕ → ℕ → ℕ × JobOutcome) : WSys → List WLabel → WSys → Prop where
  | refl (s : WSys) : WReach J s [] s
  | step {s1 : WSys} {l : WLabel} {s2 : WSys} {tr : List WLabel} {s3 : WSys} :
      WStep J s1 l s2 → WReach J s2 tr s3 → WReach J s1 (l :: tr) s3

/-- Initial state: empty queue, idle worker, no submissions, stream idle. -/
def winit : WSys :=
  { queue := []
    hwst := 0
    wpc := .idle
    slots := fun _ => .empty
    callers := fun _ => .notSubmitted
    stpc := .stIdle }

/-- Number of threads currently executing against the device handles: the
worker thread while running a job, plus the stream thread while measuring. -/
def deviceUsers (s : WSys) : ℕ :=
  (match s.wpc with | .idle => 0 | .running _ _ => 1) +
  (match s.stpc with | .stIdle => 0 | .stMeasuring => 1)

/-- A concrete job environment for closed instances: every job returns 7. -/
def exJ : ℕ → ℕ → ℕ × JobOutcome := fun _ h => (h, .ret (.norm 7))

/-- Reachability decomposes along trace concatenation. -/
theorem wreach_append {J : ℕ → ℕ → ℕ × JobOutcome} {s : WSys} {t1 t2 : List WLabel}
    {s3 : WSys} (h : WReach J s (t1 ++ t2) s3) :
    ∃ s2, WReach J s t1 s2 ∧ WReach J s2 t2 s3 := by
  induction t1 generalizing s with
  | nil => exact ⟨s, .refl s, h⟩
  | cons l t1 ih =>
    cases h with
    | step hstep hrest =>
      obtain ⟨s2, hmid, hend⟩ := ih hrest
      exact ⟨s2, .step hstep hmid, hend⟩

/-- While the worker is running job `c`, the only way for it to become idle
again is an explicit `jobEnd c` transition: the job runs to completion before
anything else happens on the worker thread. -/
theorem close_interval {J : ℕ → ℕ → ℕ × JobOutcome} {s : WSys} {t : List WLabel}
    {s2 : WSys} {c : ℕ} {out : JobOutcome} (h : WReach J s t s2) :
    s.wpc = .running c out → s2.wpc = .idle → ∃ u v, t = u ++ .jobEnd c :: v := by
  induction h with
  | refl s =>
    intro h1 h2
    rw [h1] at h2
    exact absurd h2 (by simp)
  | step hstep hrest ih =>
    intro hrun hidle
    cases hstep with
    | submitStep c0 hc =>
      obtain ⟨u, v, huv⟩ := ih hrun hidle
      exact ⟨.submitReq c0 :: u, v, by simp [huv]⟩
    | startStep c0 rest hq hwi =>
      rw [hrun] at hwi
      exact absurd hwi (by simp)
    | endStep c0 out0 hwi =>
      rw [hrun] at hwi
      obtain ⟨rfl, -⟩ := WPC.running.inj hwi
      exact ⟨[], _, rfl⟩
    | recvStep c0 v hc hs =>
      obtain ⟨u, v2, huv⟩ := ih hrun hidle
      exact ⟨.recv c0 :: u, v2, by simp [huv]⟩
    | timeoutStep c0 hc hs =>
      obtain ⟨u, v2, huv⟩ := ih hrun hidle
      exact ⟨.timeoutFire c0 :: u, v2, by simp [huv]⟩
    | streamStartStep hs =>
      obtain ⟨u, v2, huv⟩ := ih hrun hidle
      exact ⟨.streamStart :: u, v2, by simp [huv]⟩
    | streamEndStep hs =>
      obtain ⟨u, v2, huv⟩ := ih hrun hidle
      exact ⟨.streamEnd :: u, v2, by simp [huv]⟩

/-- The state reached by: a caller submits job 0, the worker starts it, and
the countrate stream thread starts a direct measurement on `hw.tagger`. -/
def c1state : WSys :=
  { queue := []
    hwst := 0
    wpc := .running 0 (.ret (.norm 7))
    slots := fun _ => .empty
    callers := Function.update (fun _ => CallerSt.notSubmitted) 0 .waiting
    stpc := .stMeasuring }

/-- C1 (counterexample): the mutual-exclusion claim fails on the code.  The
streaming workers reach the device directly (`Countrate(hw.tagger, ...)` at
app.py:592-594) rather than through `submit`, so a stream measurement can be
in progress at the same instant the worker thread is executing a submitted
job: below, a state with two concurrent device users is reachable.  (The
repository's own `verify_parallel_sockets.py` checks for exactly this
parallelism.) -/
theorem c1_stream_overlaps_submitted_job :
    WReach exJ winit [.submitReq 0, .jobStart 0, .streamStart] c1state ∧
    deviceUsers c1state = 2 := by
  constructor
  · exact .step (.submitStep _ _ rfl)
      (.step (.startStep _ _ _ rfl rfl)
        (.step (.streamStartStep _ rfl) (.refl _)))
  · rfl

/-- C1 (amended): mutual exclusion does hold among *submitted* jobs.  Only
the single worker loop executes submitted jobs, strictly one at a time: in
any reachable trace, between the starts of two submitted jobs the first
job's `jobEnd` occurs, so execution intervals of submitted jobs never
overlap.  (Stream loops bypass `submit` and are not covered, per the
counterexample.) -/
theorem c1_submitted_jobs_serialized (J : ℕ → ℕ → ℕ × JobOutcome)
    {t1 t2 t3 : List WLabel} {c c2 : ℕ} {s : WSys}
    (h : WReach J winit (t1 ++ .jobStart c :: (t2 ++ .jobStart c2 :: t3)) s) :
    ∃ u v, t2 = u ++ .jobEnd c :: v := by
  obtain ⟨sa, h1, h2⟩ := wreach_append h
  cases h2 with
  | step hstart hrest =>
    obtain ⟨sc, hmid, hlast⟩ := wreach_append hrest
    cases hlast with
    | step hstart2 hrest2 =>
      have hscidle : sc.wpc = .idle := by
        cases hstart2 with | startStep rest2 hq2 hwi2 hwpc2 => exact hwpc2
      cases hstart with
      | startStep rest hq hwi hwpc => exact close_interval hmid rfl hscidle

/-- The final state of the concrete serialized run used as C1's witness. -/
def c1wstate : WSys :=
  { queue := []
    hwst := 0
    wpc := .running 1 (.ret (.norm 7))
    slots := Function.update (fun _ => SlotSt.empty) 0 (.filled (.norm 7))
    callers := Function.update (Function.update (fun _ => CallerSt.notSubmitted) 0 .waiting) 1 .waiting
    stpc := .stIdle }

/-- C1 (witness): the serialization theorem applied to a concrete run with
two submitted jobs. -/
theorem c1_submitted_jobs_serialized_witness :
    ∃ u v, ([.jobEnd 0] : List WLabel) = u ++ .jobEnd 0 :: v :=
  @c1_submitted_jobs_serialized exJ [.submitReq 0, .submitReq 1] [.jobEnd 0] [] 0 1 c1wstate
    (.step (.submitStep _ _ rfl)
      (.step (.submitStep _ _ rfl)
        (.step (.startStep _ _ _ rfl rfl)
          (.step (.endStep _ _ _ rfl)
            (.step (.startStep _ _ _ rfl rfl) (.refl _))))))

/-! ## Pending jobs, completion, timeout absorption (for C3 and C5) -/

/-- Job `c` is still owed processing by the worker: queued, running, or its
slot already filled. -/
def jobPending (s : WSys) (c : ℕ) : Prop :=
  c ∈ s.queue ∨ (∃ out, s.wpc = .running c out) ∨ (∃ v, s.slots c = .filled v)

/-- A label that only the worker thread performs. -/
def workerLabel : WLabel → Prop
  | .jobStart _ => True
  | .jobEnd _ => True
  | _ => False

/-- Every step preserves the invariant that each caller past `notSubmitted`
has a pending job. -/
theorem pending_preserved {J : ℕ → ℕ → ℕ × JobOutcome} {s : WSys} {l : WLabel}
    {s' : WSys} (h : WStep J s l s')
    (hinv : ∀ c, s.callers c ≠ .notSubmitted → jobPending s c) :
    ∀ c, s'.callers c ≠ .notSubmitted → jobPending s' c := by
  cases h with
  | submitStep c0 hc =>
    intro c hne
    by_cases hcc : c = c0
    · subst hcc
      exact Or.inl (by simp)
    · have hp := hinv c (by simpa [Function.update, hcc] using hne)
      rcases hp with hq | hr | hf
      · exact Or.inl (List.mem_append_left _ hq)
      · exact Or.inr (Or.inl hr)
      · exact Or.inr (Or.inr hf)
  | startStep c0 rest hq hwpc =>
    intro c hne
    rcases hinv c hne with hmem | ⟨out, hr⟩ | hf
    · rw [hq] at hmem
      rcases List.mem_cons.mp hmem with rfl | hmem2
      · exact Or.inr (Or.inl ⟨_, rfl⟩)
      · exact Or.inl hmem2
    · rw [hwpc] at hr
      exact absurd hr (by simp)
    · exact Or.inr (Or.inr hf)
  | endStep c0 out0 hwpc =>
    intro c hne
    rcases hinv c hne with hmem | ⟨out, hr⟩ | ⟨v, hf⟩
    · exact Or.inl hmem
    · rw [hwpc] at hr
      obtain ⟨rfl, -⟩ := WPC.running.inj hr
      exact Or.inr (Or.inr ⟨slotValue out0, by simp [Function.update]⟩)
    · by_cases hcc : c = c0
      · subst hcc
        exact Or.inr (Or.inr ⟨slotValue out0, by simp [Function.update]⟩)
      · exact Or.inr (Or.inr ⟨v, by simpa [Function.update, hcc] using hf⟩)
  | recvStep c0 v hc hs =>
    intro c hne
    by_cases hcc : c = c0
    · subst hcc
      exact hinv c (by rw [hc]; simp)
    · exact hinv c (by simpa [Function.update, hcc] using hne)
  | timeoutStep c0 hc hs =>
    intro c hne
    by_cases hcc : c = c0
    · subst hcc
      exact hinv c (by rw [hc]; simp)
    · exact hinv c (by simpa [Function.update, hcc] using hne)
  | streamStartStep hs =>
    intro c hne
    exact hinv c hne
  | streamEndStep hs =>
    intro c hne
    exact hinv c hne

/-- From the initial state, every submitted job is pending or completed. -/
theorem wreach_inv_pending {J : ℕ → ℕ → ℕ × JobOutcome} :
    ∀ {s0 : WSys} {tr : List WLabel} {s : WSys}, WReach J s0 tr s →
    (∀ c, s0.callers c ≠ .notSubmitted → jobPending s0 c) →
    ∀ c, s.callers c ≠ .notSubmitted → jobPending s c := by
  intro s0 tr s h
  induction h with
  | refl s => exact fun h0 => h0
  | step hstep hrest ih => exact fun h0 => ih (pending_preserved hstep h0)

/-- With the worker idle, a queued job is run to completion (its slot gets
filled) by a finite sequence of worker-thread steps. -/
theorem run_idle {J : ℕ → ℕ → ℕ × JobOutcome} :
    ∀ (n : ℕ) (s : WSys) (c : ℕ), s.queue.length ≤ n → s.wpc = .idle →
    c ∈ s.queue →
    ∃ tr s2, WReach J s tr s2 ∧ (∀ l ∈ tr, workerLabel l) ∧
      ∃ v, s2.slots c = .filled v := by
  intro n
  induction n with
  | zero =>
    intro s c hlen _ hmem
    rw [Nat.le_zero, List.length_eq_zero] at hlen
    rw [hlen] at hmem
    exact absurd hmem (by simp)
  | succ n ih =>
    intro s c hlen hidle hmem
    cases hq : s.queue with
    | nil =>
      rw [hq] at hmem
      exact absurd hmem (by simp)
    | cons q0 rest =>
      have st1 := WStep.startStep (J := J) s q0 rest hq hidle
      have st2 := WStep.endStep (J := J)
        { s with queue := rest, hwst := (J q0 s.hwst).1,
                 wpc := WPC.running q0 (J q0 s.hwst).2 }
        q0 ((J q0 s.hwst).2) rfl
      by_cases hcc : c = q0
      · subst hcc
        refine ⟨[.jobStart c, .jobEnd c], _,
          .step st1 (.step st2 (.refl _)), ?_,
          ⟨slotValue (J c s.hwst).2, by simp [Function.update]⟩⟩
        intro l hl
        rcases List.mem_cons.mp hl with rfl | hl
        · trivial
        · rcases List.mem_cons.mp hl with rfl | hl
          · trivial
          · exact absurd hl (by simp)
      · have hmem2 : c ∈ rest := by
          rw [hq] at hmem
          rcases List.mem_cons.mp hmem with rfl | hmem2
          · exact absurd rfl hcc
          · exact hmem2
        have hlen2 : rest.length ≤ n := by
          rw [hq] at hlen
          simpa using hlen
        obtain ⟨tr, s3, hre, hwl, v, hv⟩ :=
          ih { s with queue := rest, hwst := (J q0 s.hwst).1, wpc := WPC.idle,
                      slots := Function.update s.slots q0
                        (SlotSt.filled (slotValue (J q0 s.hwst).2)) }
            c hlen2 rfl hmem2
        refine ⟨.jobStart q0 :: .jobEnd q0 :: tr, s3,
          .step st1 (.step st2 hre), ?_, v, hv⟩
        intro l hl
        rcases List.mem_cons.mp hl with rfl | hl
        · trivial
        · rcases List.mem_cons.mp hl with rfl | hl
          · trivial
          · exact hwl l hl

/-- Any pending job can be run to completion by worker-thread steps alone:
a caller's timeout does not cancel its job. -/
theorem pending_completes {J : ℕ → ℕ → ℕ × JobOutcome} {s : WSys} {c : ℕ}
    (hp : jobPending s c) :
    ∃ tr s2, WReach J s tr s2 ∧ (∀ l ∈ tr, workerLabel l) ∧
      ∃ v, s2.slots c = .filled v := by
  rcases hp with hq | ⟨out, hrun⟩ | ⟨v, hv⟩
  · cases hwpc : s.wpc with
    | idle => exact run_idle s.queue.length s c le_rfl hwpc hq
    | running c2 out2 =>
      have st := WStep.endStep (J := J) s c2 out2 hwpc
      obtain ⟨tr, s2, hre, hwl, v, hv⟩ :=
        run_idle (J := J) s.queue.length
          { s with wpc := WPC.idle,
                   slots := Function.update s.slots c2 (SlotSt.filled (slotValue out2)) }
          c le_rfl rfl hq
      refine ⟨.jobEnd c2 :: tr, s2, .step st hre, ?_, v, hv⟩
      intro l hl
      rcases List.mem_cons.mp hl with rfl | hl
      · trivial
      · exact hwl l hl
  · refine ⟨[.jobEnd c], _, .step (.endStep s c out hrun) (.refl _), ?_,
      slotValue out, by simp [Function.update]⟩
    intro l hl
    rcases List.mem_cons.mp hl with rfl | hl
    · trivial
    · exact absurd hl (by simp)
  · exact ⟨[], s, .refl s, by simp, v, hv⟩

/-- A caller that has timed out stays timed out across one step, and that
step cannot be a delivery to it. -/
theorem timedOut_absorbing_step {J : ℕ → ℕ → ℕ × JobOutcome} {s : WSys}
    {l : WLabel} {s' : WSys} {c : ℕ} (h : WStep J s l s')
    (hc : s.callers c = .timedOut) :
    s'.callers c = .timedOut ∧ l ≠ .recv c := by
  cases h with
  | submitStep c0 h0 =>
    refine ⟨?_, by simp⟩
    by_cases hcc : c = c0
    · subst hcc; rw [hc] at h0; exact absurd h0 (by simp)
    · simpa [Function.update, hcc] using hc
  | startStep c0 rest hq hwpc => exact ⟨hc, by simp⟩
  | endStep c0 out0 hwpc => exact ⟨hc, by simp⟩
  | recvStep c0 v h0 hs =>
    by_cases hcc : c = c0
    · subst hcc; rw [hc] at h0; exact absurd h0 (by simp)
    · constructor
      · simpa [Function.update, hcc] using hc
      · simpa using fun hne => absurd hne.symm hcc
  | timeoutStep c0 h0 hs =>
    by_cases hcc : c = c0
    · subst hcc; rw [hc] at h0; exact absurd h0 (by simp)
    · constructor
      · simpa [Function.update, hcc] using hc
      · simp
  | streamStartStep hs => exact ⟨hc, by simp⟩
  | streamEndStep hs => exact ⟨hc, by simp⟩

/-- A timed-out caller never changes state again and never receives a
result: the abandoned job's result is discarded, not delivered. -/
theorem timedOut_absorbing {J : ℕ → ℕ → ℕ × JobOutcome} :
    ∀ {s : WSys} {tr : List WLabel} {s' : WSys}, WReach J s tr s' →
    ∀ c, s.callers c = .timedOut → s'.callers c = .timedOut ∧ .recv c ∉ tr := by
  intro s tr s' h
  induction h with
  | refl s => exact fun c hc => ⟨hc, by simp⟩
  | step hstep hrest ih =>
    intro c hc
    obtain ⟨hc2, hne⟩ := timedOut_absorbing_step hstep hc
    obtain ⟨hc3, hnin⟩ := ih c hc2
    refine ⟨hc3, ?_⟩
    intro hmem
    rcases List.mem_cons.mp hmem with heq | hmem2
    · exact hne heq.symm
    · exact hnin hmem2

/-- Worker-system invariant: the running outcome, every filled slot, and
every delivered result or re-raised exception all stem from the owning
caller's own job body. -/
def WInv (J : ℕ → ℕ → ℕ × JobOutcome) (s : WSys) : Prop :=
  (∀ c out, s.wpc = .running c out → ∃ h, out = (J c h).2) ∧
  (∀ c v, s.slots c = .filled v → ∃ h, v = slotValue (J c h).2) ∧
  (∀ c e, s.callers c = .gotExc e → ∃ h, slotValue (J c h).2 = .excInst e) ∧
  (∀ c n, s.callers c = .gotVal n → ∃ h, slotValue (J c h).2 = .norm n)

/-- The invariant holds initially. -/
theorem winv_init {J : ℕ → ℕ → ℕ × JobOutcome} : WInv J winit := by
  refine ⟨?_, ?_, ?_, ?_⟩
  · intro c out h
    exact absurd h (by simp [winit])
  · intro c v h
    exact absurd h (by simp [winit])
  · intro c e h
    exact absurd h (by simp [winit])
  · intro c n h
    exact absurd h (by simp [winit])

/-- The invariant is preserved by every step. -/
theorem winv_preserved {J : ℕ → ℕ → ℕ × JobOutcome} {s : WSys} {l : WLabel}
    {s' : WSys} (h : WStep J s l s') (hi : WInv J s) : WInv J s' := by
  obtain ⟨h1, h2, h3, h4⟩ := hi
  cases h with
  | submitStep c0 hc =>
    refine ⟨h1, h2, ?_, ?_⟩
    · intro c e hce
      by_cases hcc : c = c0
      · subst hcc
        simp [Function.update] at hce
      · exact h3 c e (by simpa [Function.update, hcc] using hce)
    · intro c n hcn
      by_cases hcc : c = c0
      · subst hcc
        simp [Function.update] at hcn
      · exact h4 c n (by simpa [Function.update, hcc] using hcn)
  | startStep c0 rest hq hwpc =>
    refine ⟨?_, h2, h3, h4⟩
    intro c out hr
    obtain ⟨h5, h6⟩ := WPC.running.inj hr
    subst h5
    exact ⟨s.hwst, h6.symm⟩
  | endStep c0 out0 hwpc =>
    refine ⟨?_, ?_, h3, h4⟩
    · intro c out hr
      exact absurd hr (by simp)
    · intro c v hv
      by_cases hcc : c = c0
      · subst hcc
        simp [Function.update] at hv
        obtain ⟨h0, hout⟩ := h1 c out0 hwpc
        exact ⟨h0, by rw [← hv, hout]⟩
      · exact h2 c v (by simpa [Function.update, hcc] using hv)
  | recvStep c0 v hc hs =>
    refine ⟨h1, h2, ?_, ?_⟩
    · intro c e hce
      by_cases hcc : c = c0
      · subst hcc
        simp [Function.update] at hce
        obtain ⟨h0, hv⟩ := h2 c v hs
        cases v with
        | norm n => simp [recvResult] at hce
        | excInst e2 =>
          simp [recvResult] at hce
          exact ⟨h0, by rw [← hv, hce]⟩
      · exact h3 c e (by simpa [Function.update, hcc] using hce)
    · intro c n hcn
      by_cases hcc : c = c0
      · subst hcc
        simp [Function.update] at hcn
        obtain ⟨h0, hv⟩ := h2 c v hs
        cases v with
        | norm n2 =>
          simp [recvResult] at hcn
          exact ⟨h0, by rw [← hv, hcn]⟩
        | excInst e2 => simp [recvResult] at hcn
      · exact h4 c n (by simpa [Function.update, hcc] using hcn)
  | timeoutStep c0 hc hs =>
    refine ⟨h1, h2, ?_, ?_⟩
    · intro c e hce
      by_cases hcc : c = c0
      · subst hcc
        simp [Function.update] at hce
      · exact h3 c e (by simpa [Function.update, hcc] using hce)
    · intro c n hcn
      by_cases hcc : c = c0
      · subst hcc
        simp [Function.update] at hcn
      · exact h4 c n (by simpa [Function.update, hcc] using hcn)
  | streamStartStep hs => exact ⟨h1, h2, h3, h4⟩
  | streamEndStep hs => exact ⟨h1, h2, h3, h4⟩

/-- The invariant holds in every reachable state. -/
theorem winv_reach {J : ℕ → ℕ → ℕ × JobOutcome} :
    ∀ {s0 : WSys} {tr : List WLabel} {s : WSys}, WReach J s0 tr s →
    WInv J s0 → WInv J s := by
  intro s0 tr s h
  induction h with
  | refl s => exact fun h0 => h0
  | step hstep hrest ih => exact fun h0 => ih (winv_preserved hstep h0)

/-- C3: `submit(job, timeout)` raises `TimeoutError` exactly when no result
has arrived in the rendezvous slot by the deadline (the deadline's firing is
nondeterministic in the model; `q.get` returns immediately whenever the slot
is filled, app.py:220-222); the timeout step leaves the queue, the worker
and every slot untouched (the job is not cancelled); the timed-out caller's
job still runs to completion by worker-thread steps alone; and a timed-out
caller never changes state again and is never delivered a result — the
late result is discarded. -/
theorem c3_timeout_not_cancelling (J : ℕ → ℕ → ℕ × JobOutcome) :
    (∀ s c, (∃ s', WStep J s (.timeoutFire c) s') ↔
      (s.callers c = .waiting ∧ s.slots c = .empty)) ∧
    (∀ s c s', WStep J s (.timeoutFire c) s' →
      s'.queue = s.queue ∧ s'.wpc = s.wpc ∧ s'.slots = s.slots) ∧
    (∀ tr s c, WReach J winit tr s → s.callers c = .timedOut →
      ∃ tr2 s2, WReach J s tr2 s2 ∧ (∀ l ∈ tr2, workerLabel l) ∧
        ∃ v, s2.slots c = .filled v) ∧
    (∀ s tr s' c, WReach J s tr s' → s.callers c = .timedOut →
      s'.callers c = .timedOut ∧ .recv c ∉ tr) := by
  refine ⟨?_, ?_, ?_, ?_⟩
  · intro s c
    constructor
    · rintro ⟨s', h⟩
      cases h with
      | timeoutStep c0 hc hs => exact ⟨hc, hs⟩
    · rintro ⟨hc, hs⟩
      exact ⟨_, .timeoutStep s c hc hs⟩
  · intro s c s' h
    cases h with
    | timeoutStep c0 hc hs => exact ⟨rfl, rfl, rfl⟩
  · intro tr s c hre hc
    have hp : jobPending s c := by
      refine wreach_inv_pending hre ?_ c (by rw [hc]; simp)
      intro c2 hc2
      exact absurd rfl hc2
    exact pending_completes hp
  · intro s tr s' c hre hc
    exact timedOut_absorbing hre c hc

/-- A concrete state with caller 0 waiting on an empty slot. -/
def c3state : WSys :=
  { queue := [0]
    hwst := 0
    wpc := .idle
    slots := fun _ => .empty
    callers := Function.update (fun _ => CallerSt.notSubmitted) 0 .waiting
    stpc := .stIdle }

/-- C3 (witness): the timeout characterisation applied at `c3state`. -/
theorem c3_timeout_not_cancelling_witness :
    ∃ s', WStep exJ c3state (.timeoutFire 0) s' :=
  ((c3_timeout_not_cancelling exJ).1 c3state 0).mpr ⟨rfl, rfl⟩

/-- C5: a job failure is captured as a value and re-raised only at the
submitting caller: after any `jobEnd` (failed or not) the worker is idle
again and can immediately dequeue the next request (the loop never halts on
a job failure); any exception re-raised at a caller is one produced by that
caller's own job body; and every submitted job — pending or future, before
or after any failure — can still be run to completion by the worker, so one
caller's failure affects no other job. -/
theorem c5_failures_are_local (J : ℕ → ℕ → ℕ × JobOutcome) :
    (∀ s c s', WStep J s (.jobEnd c) s' →
      s'.wpc = .idle ∧
        ∀ c2 rest, s'.queue = c2 :: rest → ∃ s'', WStep J s' (.jobStart c2) s'') ∧
    (∀ tr s c e, WReach J winit tr s → s.callers c = .gotExc e →
      ∃ h, slotValue (J c h).2 = .excInst e) ∧
    (∀ tr s c, WReach J winit tr s → s.callers c ≠ .notSubmitted →
      ∃ tr2 s2, WReach J s tr2 s2 ∧ (∀ l ∈ tr2, workerLabel l) ∧
        ∃ v, s2.slots c = .filled v) := by
  refine ⟨?_, ?_, ?_⟩
  · intro s c s' h
    cases h with
    | endStep c0 out0 hwpc =>
      refine ⟨rfl, ?_⟩
      intro c2 rest hq
      exact ⟨_, .startStep _ c2 rest hq rfl⟩
  · intro tr s c e hre hc
    have hi := winv_reach hre (winv_init (J := J))
    exact hi.2.2.1 c e hc
  · intro tr s c hre hc
    refine pending_completes (wreach_inv_pending hre ?_ c hc)
    intro c2 hc2
    exact absurd rfl hc2

/-- A job environment whose job 0 raises exception 3. -/
def exJe : ℕ → ℕ → ℕ × JobOutcome := fun _ h => (h, .raised 3)

/-- Final state of a run in which job 0 raised and the caller re-raised. -/
def c5wstate : WSys :=
  { queue := []
    hwst := 0
    wpc := .idle
    slots := Function.update (fun _ => SlotSt.empty) 0 (.filled (.excInst 3))
    callers := Function.update (Function.update (fun _ => CallerSt.notSubmitted) 0 .waiting) 0
      (recvResult (.excInst 3))
    stpc := .stIdle }

/-- C5 (witness): the exception-locality part applied to a concrete run
where job 0 raises exception 3 and caller 0 ends in `gotExc 3`. -/
theorem c5_failures_are_local_witness :
    ∃ h, slotValue (exJe 0 h).2 = .excInst 3 :=
  (c5_failures_are_local exJe).2.1 [.submitReq 0, .jobStart 0, .jobEnd 0, .recv 0]
    c5wstate 0 3
    (.step (.submitStep _ _ rfl)
      (.step (.startStep _ _ _ rfl rfl)
        (.step (.endStep _ _ _ rfl)
          (.step (.recvStep _ _ _ rfl rfl) (.refl _)))))
    rfl

/-- C9: a job whose normal return value is an `Exception` instance is
indistinguishable from a job that raised that exception: the worker puts the
same slot value either way, and `submit`'s `isinstance(result, Exception)`
check (app.py:224-225) re-raises it to the caller instead of returning it. -/
theorem c9_returned_exception_reraised (J : ℕ → ℕ → ℕ × JobOutcome) :
    (∀ e, slotValue (.ret (.excInst e)) = slotValue (.raised e)) ∧
    (∀ s c e s', s.slots c = .filled (.excInst e) → WStep J s (.recv c) s' →
      s'.callers c = .gotExc e) := by
  refine ⟨fun e => rfl, ?_⟩
  intro s c e s' hs h
  cases h with
  | recvStep cX vX hwait hslot =>
    obtain rfl := SlotSt.filled.inj (hs.symm.trans hslot)
    simp [Function.update, recvResult]

/-- A concrete state whose slot 0 holds an `Exception` instance. -/
def c9state : WSys :=
  { queue := []
    hwst := 0
    wpc := .idle
    slots := Function.update (fun _ => SlotSt.empty) 0 (.filled (.excInst 5))
    callers := Function.update (fun _ => CallerSt.notSubmitted) 0 .waiting
    stpc := .stIdle }

/-- C9 (witness): the re-raise theorem applied at `c9state`. -/
theorem c9_returned_exception_reraised_witness :
    (Function.update c9state.callers 0 (recvResult (.excInst 5))) 0 = .gotExc 5 :=
  (c9_returned_exception_reraised exJ).2 c9state 0 5 _ rfl
    (.recvStep c9state 0 (.excInst 5) rfl rfl)

/-! ## Validation (validate_arg, app.py:75-129) and the configure handlers -/

/-- A raw value in a Socket.IO message field, as seen by `validate_arg`:
a (JSON) number, or something `float()`/`int()` fails on. -/
inductive RawVal where
  | num (q : ℚ)
  | notNum
deriving DecidableEq, Repr

/-- Python `val == round(val, 1)`: the value has at most one decimal place.
For a rational in lowest terms this holds exactly when the denominator
divides 10 (the model uses exact rationals for float values). -/
def hasOneDecimal (q : ℚ) : Bool := 10 % q.den == 0

/-- Python `int(val)`: truncation toward zero. -/
def intTrunc (q : ℚ) : ℤ := q.num.tdiv (q.den : ℤ)

/-- `validate_arg(name, float, ...)` (app.py:75-129) for a message field:
missing value takes the default (or fails when required, i.e. no default);
conversion failure fails; then the one-decimal-place check (app.py:118-122,
after which `round(val, 1)` is the identity), then the inclusive min/max
checks (app.py:124-127). -/
def validateFloatArg (v : Option RawVal) (minv maxv : ℚ) (dflt : Option ℚ) :
    Except String ℚ :=
  match v with
  | none =>
    match dflt with
    | some d => .ok d
    | none => .error "param required"
  | some .notNum => .error "must be of type float"
  | some (.num q) =>
    if !(hasOneDecimal q) then .error "must have at most 1 decimal place"
    else if q < minv then .error "must be >= min"
    else if maxv < q then .error "must be <= max"
    else .ok q

/-- `validate_arg(name, int, ...)` for a message field: as above but with
`int` conversion and no decimal-place check. -/
def validateIntArg (v : Option RawVal) (minv maxv : ℤ) (dflt : Option ℤ) :
    Except String ℤ :=
  match v with
  | none =>
    match dflt with
    | some d => .ok d
    | none => .error "param required"
  | some .notNum => .error "must be of type int"
  | some (.num q) =>
    if intTrunc q < minv then .error "must be >= min"
    else if maxv < intTrunc q then .error "must be <= max"
    else .ok (intTrunc q)

/-- `DEFAULT_COUNTRATE_WINDOW_S = 1.0` (app.py:68). -/
def defaultCountrateWindow : ℚ := 1

/-- The countrate stream parameters stored by `cr_config` (app.py:634):
the raw channel string and the validated `rtime`. -/
structure CRParams where
  ch : String
  rtime : ℚ
deriving DecidableEq, Repr

/-- A `configure` message on `/ws/timetagger/countrate`
(`{"ch": "1,2", "rtime": 1.0}`). -/
structure CRMsg where
  ch : Option String
  rtime : Option RawVal
deriving DecidableEq, Repr

/-- `cr_config` (app.py:617-639) as a function of the message and of the
session cell for the sid: validate `rtime` (400 on ValueError, state
untouched); then look up `countrate_clients[request.sid]` — a missing sid
raises KeyError, caught by the outer handler as a 400 with state untouched;
otherwise store `{"ch": msg.get("ch", ""), "rtime": rtime}` and increment
`version`, both under `countrate_lock`, and acknowledge 200.
Returns (new params, new version, ack status). -/
def crConfigApply (m : CRMsg) (inReg : Bool) (params : Option CRParams)
    (version : ℕ) : Option CRParams × ℕ × ℕ :=
  match validateFloatArg m.rtime (mkRat 1 10) 5 (some defaultCountrateWindow) with
  | .error _ => (params, version, 400)
  | .ok r =>
    if inReg then (some ⟨m.ch.getD "", r⟩, version + 1, 200)
    else (params, version, 400)

/-- Python `ch1, ch2 = map(int, ch_str.split(","))` in `corr_config`
(app.py:786): exactly two comma-separated integer literals. -/
def corrParseCh (chs : String) : Option (ℤ × ℤ) :=
  match (chs.splitOn ",").map String.toInt? with
  | [some a, some b] => some (a, b)
  | _ => none

/-- A `configure` message on `/ws/timetagger/correlation`
(`{"ch": "1,2", "bwidth": 1000, "nbins": 20, "rtime": 1.0}`). -/
structure CorrMsg where
  ch : Option String
  bwidth : Option RawVal
  nbins : Option RawVal
  rtime : Option RawVal
deriving DecidableEq, Repr

/-- The correlation stream parameters stored by `corr_config`
(app.py:796-801). -/
structure CorrParams where
  ch : ℤ × ℤ
  bwidth : ℤ
  nbins : ℤ
  rtime : ℚ
deriving DecidableEq, Repr

/-- The validation block of `corr_config` (app.py:784-789): channel pair,
then `bwidth` (1000..10000, required), `nbins` (10..100, required),
`rtime` (0.1..5.0, required). -/
def corrValidate (m : CorrMsg) : Except String CorrParams :=
  match corrParseCh (m.ch.getD "") with
  | none => .error "ch must be two integers"
  | some cp =>
    match validateIntArg m.bwidth 1000 10000 none with
    | .error e => .error e
    | .ok bw =>
      match validateIntArg m.nbins 10 100 none with
      | .error e => .error e
      | .ok nb =>
        match validateFloatArg m.rtime (mkRat 1 10) 5 none with
        | .error e => .error e
        | .ok rt => .ok ⟨cp, bw, nb, rt⟩

/-- `corr_config` (app.py:777-806) as a function of the message and the
session cell, mirroring `crConfigApply`: on validation failure, 400 and no
mutation; on missing sid (KeyError), 400 and no mutation; otherwise replace
params and increment version under the lock, ack 200. -/
def corrConfigApply (m : CorrMsg) (inReg : Bool) (params : Option CorrParams)
    (version : ℕ) : Option CorrParams × ℕ × ℕ :=
  match corrValidate m with
  | .error _ => (params, version, 400)
  | .ok p =>
    if inReg then (some p, version + 1, 200)
    else (params, version, 400)

/-! ## Countrate stream session model (app.py:538-643)

One session: the cell created by `start_stream` (`params`, `version`,
`stop`), registry membership (`sid ∈ countrate_clients` — note
`countrate_worker` captures the cell object itself at app.py:576, so popping
the sid from the registry does not affect the running loop), and the
program counter of the `countrate_worker` loop. -/

/-- Program counter of the `countrate_worker` loop for one sid: at the top
of the `while` loop; measuring with a snapshot of `(params, version)`
(app.py:582-595); just after measuring, result `d` in hand, about to
compare versions (app.py:602); past the version check, about to emit
(app.py:605-610); or exited. -/
inductive CRpc where
  | idle
  | measuring (p : CRParams) (v : ℕ)
  | completed (p : CRParams) (v : ℕ) (d : ℕ)
  | emitting (p : CRParams) (v : ℕ) (d : ℕ)
  | done
deriving DecidableEq, Repr

/-- State of one countrate streaming session. -/
structure CRSess where
  params : Option CRParams
  version : ℕ
  stopFlag : Bool
  inReg : Bool
  pc : CRpc
deriving DecidableEq, Repr

/-- The event payload emitted at app.py:605-610:
`{"status": 200, "rates": data, "ch": ch, "rtime": rtime}` with `ch` and
`rtime` taken from the snapshot made before measuring. -/
structure CRPayload where
  status : ℕ
  ch : String
  rtime : ℚ
  rates : ℕ
deriving DecidableEq, Repr

/-- Transition labels of a countrate session. -/
inductive CRLabel where
  | configureEv (m : CRMsg) (ack : ℕ)
  | startMeasure (p : CRParams) (v : ℕ)
  | measureFail
  | measureDone (d : ℕ)
  | checkDiscard
  | checkPass
  | emitResult (pl : CRPayload)
  | disconnectEv
  | exitLoop
deriving DecidableEq, Repr

/-- Small-step semantics of one countrate streaming session.

* `configStep`: `cr_config` runs atomically under `countrate_lock`
  (app.py:631-635) and acknowledges; the measurement loop reads `version`
  without the lock, so configuration may interleave anywhere between the
  loop's steps.
* `startStep`: the loop top: `stop` is clear, `params` is set; the loop
  snapshots `ch`, `rtime` and `version` (app.py:582-584) and measures.
* `failStep`: the measurement raised; log, sleep, continue (app.py:596-599).
* `doneStep`: the measurement finished with data `d`.
* `discardStep`/`passStep`: the staleness guard `version != state["version"]`
  (app.py:602-603).
* `emitStep`: the emission (app.py:605-610), tagged with the snapshot.
* `discStep`: `stop_stream` pops the sid and sets `stop` (app.py:560-565).
* `exitStep`: the loop observes `stop` at the iteration boundary and exits. -/
inductive CRStep : CRSess → CRLabel → CRSess → Prop where
  | configStep (s : CRSess) (m : CRMsg) (a : ℕ) (p2 : Option CRParams) (v2 : ℕ) :
      crConfigApply m s.inReg s.params s.version = (p2, v2, a) →
      CRStep s (.configureEv m a) { s with params := p2, version := v2 }
  | startStep (s : CRSess) (p : CRParams) :
      s.pc = .idle →
      s.stopFlag = false →
      s.params = some p →
      CRStep s (.startMeasure p s.version) { s with pc := .measuring p s.version }
  | failStep (s : CRSess) (p : CRParams) (v : ℕ) :
      s.pc = .measuring p v →
      CRStep s .measureFail { s with pc := .idle }
  | doneStep (s : CRSess) (p : CRParams) (v : ℕ) (d : ℕ) :
      s.pc = .measuring p v →
      CRStep s (.measureDone d) { s with pc := .completed p v d }
  | discardStep (s : CRSess) (p : CRParams) (v : ℕ) (d : ℕ) :
      s.pc = .completed p v d →
      s.version ≠ v →
      CRStep s .checkDiscard { s with pc := .idle }
  | passStep (s : CRSess) (p : CRParams) (v : ℕ) (d : ℕ) :
      s.pc = .completed p v d →
      s.version = v →
      CRStep s .checkPass { s with pc := .emitting p v d }
  | emitStep (s : CRSess) (p : CRParams) (v : ℕ) (d : ℕ) :
      s.pc = .emitting p v d →
      CRStep s (.emitResult ⟨200, p.ch, p.rtime, d⟩) { s with pc := .idle }
  | discStep (s : CRSess) :
      s.inReg = true →
      CRStep s .disconnectEv { s with inReg := false, stopFlag := true }
  | exitStep (s : CRSess) :
      s.pc = .idle →
      s.stopFlag = true →
      CRStep s .exitLoop { s with pc := .done }

/-- Multi-step reachability of a session with its trace. -/
inductive CRReach : CRSess → List CRLabel → CRSess → Prop where
  | refl (s : CRSess) : CRReach s [] s
  | step {s1 : CRSess} {l : CRLabel} {s2 : CRSess} {tr : List CRLabel} {s3 : CRSess} :
      CRStep s1 l s2 → CRReach s2 tr s3 → CRReach s1 (l :: tr) s3

/-- The session cell created by `start_stream` on connect (app.py:548-558):
no params, version 0, stop clear, registered, loop at the top. -/
def crInit : CRSess :=
  { params := none, version := 0, stopFlag := false, inReg := true, pc := .idle }

/-- Boolean success test for validation results. -/
def exceptOk {α : Type} : Except String α → Bool
  | .ok _ => true
  | .error _ => false

/-- `cr_config` either succeeds (ack 200, version incremented) or leaves
the session cell untouched (ack 400). -/
theorem crConfigApply_cases (m : CRMsg) (r : Bool) (p : Option CRParams) (v : ℕ) :
    ((crConfigApply m r p v).2.2 = 200 ∧ (crConfigApply m r p v).2.1 = v + 1) ∨
    ((crConfigApply m r p v).2.2 = 400 ∧ (crConfigApply m r p v).2.1 = v ∧
      (crConfigApply m r p v).1 = p) := by
  unfold crConfigApply
  cases hv : validateFloatArg m.rtime (mkRat 1 10) 5 (some defaultCountrateWindow) with
  | error e => simp
  | ok q =>
    cases r with
    | true => simp
    | false => simp

/-- `corr_config` either succeeds (ack 200, version incremented) or leaves
the session cell untouched (ack 400). -/
theorem corrConfigApply_cases (m : CorrMsg) (r : Bool) (p : Option CorrParams) (v : ℕ) :
    ((corrConfigApply m r p v).2.2 = 200 ∧ (corrConfigApply m r p v).2.1 = v + 1) ∨
    ((corrConfigApply m r p v).2.2 = 400 ∧ (corrConfigApply m r p v).2.1 = v ∧
      (corrConfigApply m r p v).1 = p) := by
  unfold corrConfigApply
  cases hv : corrValidate m with
  | error e => simp
  | ok q =>
    cases r with
    | true => simp
    | false => simp

/-- A session's version never decreases across one step. -/
theorem crstep_version_mono {s : CRSess} {l : CRLabel} {s' : CRSess}
    (h : CRStep s l s') : s.version ≤ s'.version := by
  cases h with
  | configStep m a p2 v2 heq =>
    rcases crConfigApply_cases m s.inReg s.params s.version with ⟨h1, h2⟩ | ⟨h1, h2, h3⟩
    · rw [heq] at h2
      simp only at h2
      simp [h2]
    · rw [heq] at h2
      simp only at h2
      simp [h2]
  | startStep p h1 h2 h3 => exact le_rfl
  | failStep p v h1 => exact le_rfl
  | doneStep p v d h1 => exact le_rfl
  | discardStep p v d h1 h2 => exact le_rfl
  | passStep p v d h1 h2 => exact le_rfl
  | emitStep p v d h1 => exact le_rfl
  | discStep h1 => exact le_rfl
  | exitStep h1 h2 => exact le_rfl

/-- A session's version never decreases along any trace. -/
theorem crreach_version_mono :
    ∀ {s : CRSess} {tr : List CRLabel} {s' : CRSess}, CRReach s tr s' →
    s.version ≤ s'.version := by
  intro s tr s' h
  induction h with
  | refl s => exact le_rfl
  | step hstep hrest ih => exact le_trans (crstep_version_mono hstep) ih

/-- C7: a streaming session's version increments by exactly one on every
successful (ack 200) reconfiguration — atomically with the replacement of
the stored parameters, since the whole update is a single step under the
session lock — is unchanged by a failed (ack 400) one, and never decreases
over the session's lifetime; the correlation-modality handler `corr_config`
satisfies the same increment discipline. -/
theorem c7_version_monotonic :
    (∀ s m a s', CRStep s (.configureEv m a) s' →
      (a = 200 → s'.version = s.version + 1) ∧
      (a ≠ 200 → s'.version = s.version ∧ s'.params = s.params)) ∧
    (∀ s l s', CRStep s l s' → s.version ≤ s'.version) ∧
    (∀ s tr s', CRReach s tr s' → s.version ≤ s'.version) ∧
    (∀ m r p v,
      ((corrConfigApply m r p v).2.2 = 200 → (corrConfigApply m r p v).2.1 = v + 1) ∧
      ((corrConfigApply m r p v).2.2 ≠ 200 →
        (corrConfigApply m r p v).2.1 = v ∧ (corrConfigApply m r p v).1 = p)) := by
  refine ⟨?_, fun s l s' h => crstep_version_mono h,
    fun s tr s' h => crreach_version_mono h, ?_⟩
  · intro s m a s' h
    cases h with
    | configStep m a p2 v2 heq =>
      rcases crConfigApply_cases m s.inReg s.params s.version with
        ⟨h1, h2⟩ | ⟨h1, h2, h3⟩
      · rw [heq] at h1 h2
        simp only at h1 h2
        constructor
        · intro _
          simp [h2]
        · intro hne
          exact absurd h1 hne
      · rw [heq] at h1 h2 h3
        simp only at h1 h2 h3
        constructor
        · intro ha
          rw [ha] at h1
          exact absurd h1 (by simp)
        · intro _
          simp [h2, h3]
  · intro m r p v
    rcases corrConfigApply_cases m r p v with ⟨h1, h2⟩ | ⟨h1, h2, h3⟩
    · exact ⟨fun _ => h2, fun hne => absurd h1 hne⟩
    · refine ⟨fun ha => ?_, fun _ => ⟨h2, h3⟩⟩
      rw [ha] at h1
      exact absurd h1 (by simp)

/-- A configure message whose `rtime` is missing (so the default is used):
validation succeeds. -/
def c7msg : CRMsg := { ch := some "1,2", rtime := none }

/-- The session cell after `c7msg` is accepted from the initial state. -/
def c7state : CRSess :=
  { params := some ⟨"1,2", 1⟩, version := 1, stopFlag := false, inReg := true,
    pc := .idle }

/-- C7 (witness): a concrete successful reconfiguration increments the
version from 0 to 1. -/
theorem c7_version_monotonic_witness : c7state.version = crInit.version + 1 :=
  (c7_version_monotonic.1 crInit c7msg 200 c7state
    (.configStep crInit c7msg 200 (some ⟨"1,2", 1⟩) 1 rfl)).1 rfl

/-- C10: a configure message that fails validation is acknowledged with a
400 and leaves the whole session cell untouched — stored params, version,
stop flag and loop state — for both the countrate handler `cr_config` and
the correlation handler `corr_config`: a failed reconfiguration never
perturbs the running stream. -/
theorem c10_rejected_configure_is_noop :
    (∀ m r p v,
      exceptOk (validateFloatArg m.rtime (mkRat 1 10) 5 (some defaultCountrateWindow)) = false →
      crConfigApply m r p v = (p, v, 400)) ∧
    (∀ m r p v, exceptOk (corrValidate m) = false →
      corrConfigApply m r p v = (p, v, 400)) ∧
    (∀ s m a s', CRStep s (.configureEv m a) s' →
      exceptOk (validateFloatArg m.rtime (mkRat 1 10) 5 (some defaultCountrateWindow)) = false →
      a = 400 ∧ s'.params = s.params ∧ s'.version = s.version ∧
        s'.pc = s.pc ∧ s'.stopFlag = s.stopFlag) := by
  have hcr : ∀ (m : CRMsg) (r : Bool) (p : Option CRParams) (v : ℕ),
      exceptOk (validateFloatArg m.rtime (mkRat 1 10) 5 (some defaultCountrateWindow)) = false →
      crConfigApply m r p v = (p, v, 400) := by
    intro m r p v hbad
    unfold crConfigApply
    cases hv : validateFloatArg m.rtime (mkRat 1 10) 5 (some defaultCountrateWindow) with
    | error e => rfl
    | ok q =>
      rw [hv] at hbad
      simp [exceptOk] at hbad
  refine ⟨hcr, ?_, ?_⟩
  · intro m r p v hbad
    unfold corrConfigApply
    cases hv : corrValidate m with
    | error e => rfl
    | ok q =>
      rw [hv] at hbad
      simp [exceptOk] at hbad
  · intro s m a s' h hbad
    cases h with
    | configStep m a p2 v2 heq =>
      rw [hcr m s.inReg s.params s.version hbad] at heq
      injection heq with h1 h23
      injection h23 with h2 h3
      exact ⟨h3.symm, h1.symm, h2.symm, rfl, rfl⟩

/-- A configure message whose `rtime` has two decimal places: rejected. -/
def c10msg : CRMsg := { ch := some "1,2", rtime := some (.num (mkRat 7 100)) }

/-- C10 (witness): the rejected message leaves a concrete session cell
untouched and yields ack 400. -/
theorem c10_rejected_configure_is_noop_witness :
    crConfigApply c10msg true (some ⟨"9", 3⟩) 5 = (some ⟨"9", 3⟩, 5, 400) :=
  c10_rejected_configure_is_noop.1 c10msg true (some ⟨"9", 3⟩) 5 (by decide)

/-- A session whose stop flag is set and whose loop is at an iteration
boundary (or already exited). -/
def crQuiet (s : CRSess) : Prop :=
  s.stopFlag = true ∧ (s.pc = .idle ∨ s.pc = .done)

/-- From a quiet session no step emits, and quietness persists. -/
theorem crQuiet_preserved {s : CRSess} {l : CRLabel} {s' : CRSess}
    (h : CRStep s l s') (hq : crQuiet s) :
    crQuiet s' ∧ ∀ pl, l ≠ .emitResult pl := by
  obtain ⟨hstop, hpc⟩ := hq
  cases h with
  | configStep m a p2 v2 heq => exact ⟨⟨hstop, hpc⟩, by simp⟩
  | startStep p h1 h2 h3 => exact absurd (hstop.symm.trans h2) (by simp)
  | failStep p v h1 =>
    rcases hpc with h | h <;> rw [h] at h1 <;> exact absurd h1 (by simp)
  | doneStep p v d h1 =>
    rcases hpc with h | h <;> rw [h] at h1 <;> exact absurd h1 (by simp)
  | discardStep p v d h1 h2 =>
    rcases hpc with h | h <;> rw [h] at h1 <;> exact absurd h1 (by simp)
  | passStep p v d h1 h2 =>
    rcases hpc with h | h <;> rw [h] at h1 <;> exact absurd h1 (by simp)
  | emitStep p v d h1 =>
    rcases hpc with h | h <;> rw [h] at h1 <;> exact absurd h1 (by simp)
  | discStep h1 => exact ⟨⟨rfl, hpc⟩, by simp⟩
  | exitStep h1 h2 => exact ⟨⟨hstop, Or.inr rfl⟩, by simp⟩

/-- No trace from a quiet session contains an emission. -/
theorem crQuiet_no_emit :
    ∀ {s : CRSess} {tr : List CRLabel} {s' : CRSess}, CRReach s tr s' →
    crQuiet s → ∀ pl, .emitResult pl ∉ tr := by
  intro s tr s' h
  induction h with
  | refl s => exact fun _ pl => by simp
  | step hstep hrest ih =>
    intro hq pl hmem
    obtain ⟨hq2, hne⟩ := crQuiet_preserved hstep hq
    rcases List.mem_cons.mp hmem with heq | hmem2
    · exact hne pl heq.symm
    · exact ih hq2 pl hmem2

/-- Session cell used in C2's and C4's concrete traces: configured with
channels "1,2" and the default rtime 1.0 (version 1). -/
def c2p0 : CRParams := ⟨"1,2", 1⟩

/-- The configure message producing `c2p0` (missing rtime → default). -/
def c2msg0 : CRMsg := { ch := some "1,2", rtime := none }

/-- A second configure message: channels "3,4", rtime 2.0. -/
def c2msg1 : CRMsg := { ch := some "3,4", rtime := some (.num 2) }

/-- The parameters stored on accepting `c2msg1`. -/
def c2p1 : CRParams := ⟨"3,4", 2⟩

/-- Trace: configure; snapshot and measure; complete; version check passes;
reconfigure (version 1 → 2); only then the emission runs — carrying the
superseded parameters. -/
def c2trace : List CRLabel :=
  [.configureEv c2msg0 200, .startMeasure c2p0 1, .measureDone 5, .checkPass,
   .configureEv c2msg1 200, .emitResult ⟨200, "1,2", 1, 5⟩]

/-- Final state of `c2trace`. -/
def c2final : CRSess :=
  { params := some c2p1, version := 2, stopFlag := false, inReg := true,
    pc := .idle }

/-- C2 (counterexample): the claim's parenthetical fails.  The version check
(app.py:602) and the emission (app.py:605-610) are not atomic with respect
to `cr_config` (the loop reads `state["version"]` without holding
`countrate_lock`), so a reconfiguration can land between a passed check and
the emission: then the next delivery after the reconfiguration still
carries the old configuration's parameters (rtime 1, channels "1,2"), not
the new ones (rtime 2, channels "3,4"). -/
theorem c2_counterexample :
    CRReach crInit c2trace c2final ∧
    c2trace[4]? = some (.configureEv c2msg1 200) ∧
    c2trace[5]? = some (.emitResult ⟨200, c2p0.ch, c2p0.rtime, 5⟩) ∧
    (crConfigApply c2msg1 true (some c2p0) 1).1 = some c2p1 ∧
    c2p0.rtime ≠ c2p1.rtime ∧ c2p0.ch ≠ c2p1.ch := by
  refine ⟨?_, rfl, rfl, by decide, by decide, by decide⟩
  refine .step (.configStep _ c2msg0 200 (some c2p0) 1 (by decide)) ?_
  refine .step (.startStep _ c2p0 rfl rfl rfl) ?_
  refine .step (.doneStep _ c2p0 1 5 rfl) ?_
  refine .step (.passStep _ c2p0 1 5 rfl rfl) ?_
  refine .step (.configStep _ c2msg1 200 (some c2p1) 2 (by decide)) ?_
  exact .step (.emitStep _ c2p0 1 5 rfl) (.refl _)

/-- C2 (amended): every emission originates from the `emitting` state and is
tagged with the snapshot parameters under which it was sampled; the
`emitting` state is entered only through the version check, which passes
only when the session's version at check time still equals the snapshot
version; from a completed measurement whose snapshot version is stale no
step can reach the `emitting` state for it; and a measurement started after
a reconfiguration snapshots the then-current parameters and version.  (The
check and the emission are not atomic: a reconfiguration arriving between
them lets the immediately following delivery carry the superseded
parameters, per the counterexample.) -/
theorem c2_staleness_guard :
    (∀ s pl s', CRStep s (.emitResult pl) s' →
      ∃ p v d, s.pc = .emitting p v d ∧ pl = ⟨200, p.ch, p.rtime, d⟩) ∧
    (∀ s s', CRStep s .checkPass s' →
      ∃ p v d, s.pc = .completed p v d ∧ s.version = v ∧
        s'.pc = .emitting p v d) ∧
    (∀ s l s' p v d, CRStep s l s' → s.pc = .completed p v d →
      s.version ≠ v → s'.pc ≠ .emitting p v d) ∧
    (∀ s p v s', CRStep s (.startMeasure p v) s' →
      s.params = some p ∧ v = s.version ∧ s'.pc = .measuring p v) := by
  refine ⟨?_, ?_, ?_, ?_⟩
  · intro s pl s' h
    cases h with
    | emitStep p v d h1 => exact ⟨p, v, d, h1, rfl⟩
  · intro s s' h
    cases h with
    | passStep p v d h1 h2 => exact ⟨p, v, d, h1, h2, rfl⟩
  · intro s l s' p v d h hpc hne
    cases h with
    | configStep m a p2 v2 heq =>
      intro hcontra
      simp only at hcontra
      rw [hpc] at hcontra
      exact absurd hcontra (by simp)
    | startStep p0 h1 h2 h3 =>
      rw [hpc] at h1
      exact absurd h1 (by simp)
    | failStep p0 v0 h1 =>
      rw [hpc] at h1
      exact absurd h1 (by simp)
    | doneStep p0 v0 d0 h1 =>
      rw [hpc] at h1
      exact absurd h1 (by simp)
    | discardStep p0 v0 d0 h1 h2 =>
      intro hcontra
      simp only at hcontra
      exact absurd hcontra (by simp)
    | passStep p0 v0 d0 h1 h2 =>
      rw [hpc] at h1
      obtain ⟨rfl, h5, -⟩ := CRpc.completed.inj h1
      exact absurd (h2.trans h5.symm) hne
    | emitStep p0 v0 d0 h1 =>
      rw [hpc] at h1
      exact absurd h1 (by simp)
    | discStep h1 =>
      intro hcontra
      simp only at hcontra
      rw [hpc] at hcontra
      exact absurd hcontra (by simp)
    | exitStep h1 h2 =>
      rw [hpc] at h1
      exact absurd h1 (by simp)
  · intro s p v s' h
    cases h with
    | startStep p0 h1 h2 h3 => exact ⟨h3, rfl, rfl⟩

/-- A session about to emit a measurement snapshotted under version 1. -/
def c2wstate : CRSess :=
  { params := some c2p0, version := 1, stopFlag := false, inReg := true,
    pc := .emitting c2p0 1 5 }

/-- C2 (witness): the tagging conjunct applied at a concrete emission. -/
theorem c2_staleness_guard_witness :
    ∃ p v d, c2wstate.pc = .emitting p v d ∧
      (⟨200, c2p0.ch, c2p0.rtime, 5⟩ : CRPayload) = ⟨200, p.ch, p.rtime, d⟩ :=
  c2_staleness_guard.1 c2wstate ⟨200, c2p0.ch, c2p0.rtime, 5⟩ _
    (.emitStep c2wstate c2p0 1 5 rfl)

/-- Trace: configure; start measuring; the client disconnects mid-flight
(stop set, sid popped from the registry); the measurement completes; the
version check still passes (disconnect does not change the version, and the
worker holds a direct reference to the session cell captured at app.py:576);
the result is emitted after the disconnect. -/
def c4trace : List CRLabel :=
  [.configureEv c2msg0 200, .startMeasure c2p0 1, .disconnectEv,
   .measureDone 7, .checkPass, .emitResult ⟨200, "1,2", 1, 7⟩]

/-- Final state of `c4trace`. -/
def c4final : CRSess :=
  { params := some c2p0, version := 1, stopFlag := true, inReg := false,
    pc := .idle }

/-- C4 (counterexample): the claim fails.  After `stop_stream` has run (stop
set and the sid removed from the registry), the in-flight measurement still
completes, passes the version check — which `stop_stream` does not touch —
and is emitted to the session's channel (`socketio.emit(..., to=sid)` at
app.py:605-610 executes; nothing in the worker consults the registry before
emitting). -/
theorem c4_counterexample :
    CRReach crInit c4trace c4final ∧
    c4trace[2]? = some .disconnectEv ∧
    c4trace[5]? = some (.emitResult ⟨200, "1,2", 1, 7⟩) := by
  refine ⟨?_, rfl, rfl⟩
  refine .step (.configStep _ c2msg0 200 (some c2p0) 1 (by decide)) ?_
  refine .step (.startStep _ c2p0 rfl rfl rfl) ?_
  refine .step (.discStep _ rfl) ?_
  refine .step (.doneStep _ c2p0 1 7 rfl) ?_
  refine .step (.passStep _ c2p0 1 7 rfl rfl) ?_
  exact .step (.emitStep _ c2p0 1 7 rfl) (.refl _)

/-- C4 (amended): `stop_stream` sets the stop flag and removes the session
from the registry in one locked step; after that no *new* measurement is
ever started (starting requires the stop flag clear), and once the loop is
back at an iteration boundary nothing is ever emitted again — but a
measurement already in flight at disconnect time may still complete and be
emitted, addressed to the now-disconnected sid, per the counterexample. -/
theorem c4_disconnect_stops_stream :
    (∀ s s', CRStep s .disconnectEv s' → s'.stopFlag = true ∧ s'.inReg = false) ∧
    (∀ s p v s', CRStep s (.startMeasure p v) s' → s.stopFlag = false) ∧
    (∀ s tr s', CRReach s tr s' → s.stopFlag = true → s.pc = .idle →
      ∀ pl, .emitResult pl ∉ tr) := by
  refine ⟨?_, ?_, ?_⟩
  · intro s s' h
    cases h with
    | discStep h1 => exact ⟨rfl, rfl⟩
  · intro s p v s' h
    cases h with
    | startStep p0 h1 h2 h3 => exact h2
  · intro s tr s' h hstop hidle
    exact crQuiet_no_emit h ⟨hstop, Or.inl hidle⟩

/-- C4 (witness): the disconnect conjunct applied at the initial session. -/
theorem c4_disconnect_stops_stream_witness :
    ({ crInit with inReg := false, stopFlag := true } : CRSess).stopFlag = true ∧
    ({ crInit with inReg := false, stopFlag := true } : CRSess).inReg = false :=
  c4_disconnect_stops_stream.1 crInit _ (.discStep crInit rfl)

/-! ## Status broadcaster model (app.py:434-532)

`laser_broadcaster` and `timetagger_broadcaster` are structurally identical
loops over a subscriber counter guarded by a lock: if the counter is zero,
sleep 0.5 s and recheck; otherwise `hw.submit(status_job, 2.0)`, emit the
result to the shared namespace, and sleep 1.0 s; on `TimeoutError` sleep
0.5 s and retry quietly; on any other exception log and sleep 1.0 s.  The
connect/disconnect handlers increment and decrement (floored at zero) the
counter under the same lock.  The zero-check happens under the lock, but
the lock is released before `hw.submit`, so the counter can change in
between. -/

/-- Program counter of a broadcaster loop. -/
inductive BPC where
  | atCheck
  | toSubmit
  | inSubmit
  | toEmit (d : ℕ)
  | afterEmit
  | afterTimeout
  | afterErr
deriving DecidableEq, Repr

/-- Broadcaster system state: the subscriber counter of its channel and the
loop's program counter. -/
structure BSys where
  subs : ℕ
  bpc : BPC
deriving DecidableEq, Repr

/-- Transition labels of the broadcaster system. -/
inductive BLabel where
  | subConnect
  | subDisconnect
  | idleSleep
  | observePos (n : ℕ)
  | submitEv (n : ℕ)
  | submitRet (d : ℕ)
  | submitTimeoutEv
  | submitErr
  | broadcastEv (d : ℕ)
  | cadenceSleep
  | shortSleep
  | errSleep
deriving DecidableEq, Repr

/-- Small-step semantics of a broadcaster with its subscriber counter.

* `connectStep`/`disconnectStep`: the `connect`/`disconnect` handlers
  (app.py:508-532); decrement is `max(0, n - 1)`.
* `idleStep`: the counter is observed zero under the lock; sleep 0.5 s and
  recheck (app.py:454-457) — nothing is submitted or emitted.
* `observeStep`: the counter is observed nonzero under the lock; the loop
  proceeds to `hw.submit` after releasing the lock.
* `submitStep2`: the call `hw.submit(status_job, 2.0)` is issued; the label
  records the counter *at that instant* (possibly different from the one
  observed at the check).
* `retStep`/`timeoutStep2`/`errStep`: the submit returns data, raises
  `TimeoutError`, or raises some other exception (app.py:459-476).
* `broadcastStep`: `socketio.emit` of the status to the shared namespace.
* `cadenceStep`/`shortStep`/`errSleepStep`: the three sleeps, all returning
  to the top of the loop. -/
inductive BStep : BSys → BLabel → BSys → Prop where
  | connectStep (s : BSys) :
      BStep s .subConnect { s with subs := s.subs + 1 }
  | disconnectStep (s : BSys) :
      BStep s .subDisconnect { s with subs := s.subs - 1 }
  | idleStep (s : BSys) :
      s.bpc = .atCheck → s.subs = 0 →
      BStep s .idleSleep s
  | observeStep (s : BSys) :
      s.bpc = .atCheck → s.subs ≠ 0 →
      BStep s (.observePos s.subs) { s with bpc := .toSubmit }
  | submitStep2 (s : BSys) :
      s.bpc = .toSubmit →
      BStep s (.submitEv s.subs) { s with bpc := .inSubmit }
  | retStep (s : BSys) (d : ℕ) :
      s.bpc = .inSubmit →
      BStep s (.submitRet d) { s with bpc := .toEmit d }
  | timeoutStep2 (s : BSys) :
      s.bpc = .inSubmit →
      BStep s .submitTimeoutEv { s with bpc := .afterTimeout }
  | errStep (s : BSys) :
      s.bpc = .inSubmit →
      BStep s .submitErr { s with bpc := .afterErr }
  | broadcastStep (s : BSys) (d : ℕ) :
      s.bpc = .toEmit d →
      BStep s (.broadcastEv d) { s with bpc := .afterEmit }
  | cadenceStep (s : BSys) :
      s.bpc = .afterEmit →
      BStep s .cadenceSleep { s with bpc := .atCheck }
  | shortStep (s : BSys) :
      s.bpc = .afterTimeout →
      BStep s .shortSleep { s with bpc := .atCheck }
  | errSleepStep (s : BSys) :
      s.bpc = .afterErr →
      BStep s .errSleep { s with bpc := .atCheck }

/-- Multi-step reachability of the broadcaster system. -/
inductive BReach : BSys → List BLabel → BSys → Prop where
  | refl (s : BSys) : BReach s [] s
  | step {s1 : BSys} {l : BLabel} {s2 : BSys} {tr : List BLabel} {s3 : BSys} :
      BStep s1 l s2 → BReach s2 tr s3 → BReach s1 (l :: tr) s3

/-- Initial broadcaster state: no subscribers, loop at the top. -/
def binit : BSys := { subs := 0, bpc := .atCheck }

/-- A label belonging to the broadcaster thread itself (not to a
connect/disconnect handler). -/
def broadcasterLabel : BLabel → Bool
  | .subConnect => false
  | .subDisconnect => false
  | _ => true

/-- The state after: a client connects, the broadcaster observes one
subscriber, the client disconnects, and the submit is issued anyway. -/
def c8state : BSys := { subs := 0, bpc := .inSubmit }

/-- C8 (counterexample): the "never submits while the counter is zero"
claim fails.  The zero-check runs under the lock, but the lock is released
before `hw.submit` (app.py:454-460), so the last subscriber can disconnect
in between: below, a status job is submitted (`submitEv 0`) in a state
whose subscriber counter is zero. -/
theorem c8_counterexample :
    BReach binit [.subConnect, .observePos 1, .subDisconnect, .submitEv 0] c8state ∧
    broadcasterLabel (.submitEv 0) = true := by
  refine ⟨?_, rfl⟩
  refine .step (.connectStep _) ?_
  refine .step (.observeStep _ rfl (by decide)) ?_
  refine .step (.disconnectStep _) ?_
  exact .step (.submitStep2 _ rfl) (.refl _)

/-- C8 (amended): a status job is submitted only after a locked check
observed a nonzero subscriber count (while the observed count is zero the
broadcaster only sleeps and rechecks, submitting and emitting nothing),
though the count may drop to zero between the check and the submit; after a
`TimeoutError` the broadcaster's next own step is the short 0.5 s backoff
straight back to the recheck, emitting nothing; after any other failure its
next own step is the longer 1.0 s backoff back to the recheck, emitting
nothing; each broadcast is followed by the fixed 1.0 s cadence sleep before
the next check; and the loop never terminates: in every state the
broadcaster has a step of its own enabled. -/
theorem c8_broadcaster_gating :
    (∀ s n s', BStep s (.observePos n) s' →
      n = s.subs ∧ 0 < n ∧ s'.bpc = .toSubmit) ∧
    (∀ s l s', s.bpc = .atCheck → s.subs = 0 → BStep s l s' →
      broadcasterLabel l = true → l = .idleSleep ∧ s' = s) ∧
    (∀ s n s', BStep s (.submitEv n) s' → s.bpc = .toSubmit ∧ n = s.subs) ∧
    (∀ s s', BStep s .submitTimeoutEv s' →
      ∀ l s'', BStep s' l s'' → broadcasterLabel l = true →
        l = .shortSleep ∧ s''.bpc = .atCheck) ∧
    (∀ s s', BStep s .submitErr s' →
      ∀ l s'', BStep s' l s'' → broadcasterLabel l = true →
        l = .errSleep ∧ s''.bpc = .atCheck) ∧
    (∀ s d s', BStep s (.broadcastEv d) s' →
      ∀ l s'', BStep s' l s'' → broadcasterLabel l = true →
        l = .cadenceSleep ∧ s''.bpc = .atCheck) ∧
    (∀ s : BSys, ∃ l s', BStep s l s' ∧ broadcasterLabel l = true) := by
  refine ⟨?_, ?_, ?_, ?_, ?_, ?_, ?_⟩
  · intro s n s' h
    cases h with
    | observeStep h1 h2 => exact ⟨rfl, Nat.pos_of_ne_zero h2, rfl⟩
  · intro s l s' hpc hz h hb
    cases h with
    | connectStep => simp [broadcasterLabel] at hb
    | disconnectStep => simp [broadcasterLabel] at hb
    | idleStep h1 h2 => exact ⟨rfl, rfl⟩
    | observeStep h1 h2 => exact absurd hz h2
    | submitStep2 h1 => rw [hpc] at h1; exact absurd h1 (by simp)
    | retStep d h1 => rw [hpc] at h1; exact absurd h1 (by simp)
    | timeoutStep2 h1 => rw [hpc] at h1; exact absurd h1 (by simp)
    | errStep h1 => rw [hpc] at h1; exact absurd h1 (by simp)
    | broadcastStep d h1 => rw [hpc] at h1; exact absurd h1 (by simp)
    | cadenceStep h1 => rw [hpc] at h1; exact absurd h1 (by simp)
    | shortStep h1 => rw [hpc] at h1; exact absurd h1 (by simp)
    | errSleepStep h1 => rw [hpc] at h1; exact absurd h1 (by simp)
  · intro s n s' h
    cases h with
    | submitStep2 h1 => exact ⟨h1, rfl⟩
  · intro s s' h
    cases h with
    | timeoutStep2 h1 =>
      intro l s'' h2 hb
      cases h2 with
      | connectStep => simp [broadcasterLabel] at hb
      | disconnectStep => simp [broadcasterLabel] at hb
      | idleStep g1 g2 => exact absurd g1 (by simp)
      | observeStep g1 g2 => exact absurd g1 (by simp)
      | submitStep2 g1 => exact absurd g1 (by simp)
      | retStep d g1 => exact absurd g1 (by simp)
      | timeoutStep2 g1 => exact absurd g1 (by simp)
      | errStep g1 => exact absurd g1 (by simp)
      | broadcastStep d g1 => exact absurd g1 (by simp)
      | cadenceStep g1 => exact absurd g1 (by simp)
      | shortStep g1 => exact ⟨rfl, rfl⟩
      | errSleepStep g1 => exact absurd g1 (by simp)
  · intro s s' h
    cases h with
    | errStep h1 =>
      intro l s'' h2 hb
      cases h2 with
      | connectStep => simp [broadcasterLabel] at hb
      | disconnectStep => simp [broadcasterLabel] at hb
      | idleStep g1 g2 => exact absurd g1 (by simp)
      | observeStep g1 g2 => exact absurd g1 (by simp)
      | submitStep2 g1 => exact absurd g1 (by simp)
      | retStep d g1 => exact absurd g1 (by simp)
      | timeoutStep2 g1 => exact absurd g1 (by simp)
      | errStep g1 => exact absurd g1 (by simp)
      | broadcastStep d g1 => exact absurd g1 (by simp)
      | cadenceStep g1 => exact absurd g1 (by simp)
      | shortStep g1 => exact absurd g1 (by simp)
      | errSleepStep g1 => exact ⟨rfl, rfl⟩
  · intro s d s' h
    cases h with
    | broadcastStep d h1 =>
      intro l s'' h2 hb
      cases h2 with
      | connectStep => simp [broadcasterLabel] at hb
      | disconnectStep => simp [broadcasterLabel] at hb
      | idleStep g1 g2 => exact absurd g1 (by simp)
      | observeStep g1 g2 => exact absurd g1 (by simp)
      | submitStep2 g1 => exact absurd g1 (by simp)
      | retStep d2 g1 => exact absurd g1 (by simp)
      | timeoutStep2 g1 => exact absurd g1 (by simp)
      | errStep g1 => exact absurd g1 (by simp)
      | broadcastStep d2 g1 => exact absurd g1 (by simp)
      | cadenceStep g1 => exact ⟨rfl, rfl⟩
      | shortStep g1 => exact absurd g1 (by simp)
      | errSleepStep g1 => exact absurd g1 (by simp)
  · intro s
    cases hpc : s.bpc with
    | atCheck =>
      by_cases hz : s.subs = 0
      · exact ⟨.idleSleep, s, .idleStep s hpc hz, rfl⟩
      · exact ⟨.observePos s.subs, _, .observeStep s hpc hz, rfl⟩
    | toSubmit => exact ⟨.submitEv s.subs, _, .submitStep2 s hpc, rfl⟩
    | inSubmit => exact ⟨.submitTimeoutEv, _, .timeoutStep2 s hpc, rfl⟩
    | toEmit d => exact ⟨.broadcastEv d, _, .broadcastStep s d hpc, rfl⟩
    | afterEmit => exact ⟨.cadenceSleep, _, .cadenceStep s hpc, rfl⟩
    | afterTimeout => exact ⟨.shortSleep, _, .shortStep s hpc, rfl⟩
    | afterErr => exact ⟨.errSleep, _, .errSleepStep s hpc, rfl⟩

/-- C8 (witness): the progress conjunct applied at the initial state, and
the zero-gating conjunct applied at a concrete idle check. -/
theorem c8_broadcaster_gating_witness :
    (∃ l s', BStep binit l s' ∧ broadcasterLabel l = true) ∧
    ((.idleSleep : BLabel) = .idleSleep ∧ binit = binit) :=
  ⟨c8_broadcaster_gating.2.2.2.2.2.2 binit,
    c8_broadcaster_gating.2.1 binit .idleSleep binit rfl rfl
      (.idleStep binit rfl rfl) rfl⟩

/-! ## Emission payloads (C6)

Every REST response and socket event payload in app.py, modelled as a
key-value list in construction order.  Lookup follows Python dict semantics
(a later duplicate key overrides an earlier one, relevant for the
`{"status": 200, **r.__dict__, "power": ...}` merge in `laser_status_job`).
The `index` route (app.py:236-239) returns the HTML page and is UI, outside
the emission envelope convention. -/

/-- A JSON-ish value: a number, a string, or anything else (lists, dicts —
irrelevant to the envelope convention). -/
inductive JVal where
  | jnum (q : ℚ)
  | jstr (s : String)
  | jother
deriving DecidableEq, Repr

/-- A payload: keys with values, in construction order. -/
abbrev JObj := List (String × JVal)

/-- Python dict lookup over the construction order: the *last* binding of a
key wins. -/
def jget (o : JObj) (k : String) : Option JVal :=
  (o.reverse.find? (fun p => p.1 == k)).map (fun p => p.2)

/-- `handle_bad_request` (app.py:132-138): `{"status": 400, "error": str(e)}`. -/
def handleBadRequestPayload (e : String) : JObj :=
  [("status", .jnum 400), ("error", .jstr e)]

/-- `handle_exception` (app.py:141-148): `{"status": 400, "error": str(e)}`. -/
def handleExceptionPayload (e : String) : JObj :=
  [("status", .jnum 400), ("error", .jstr e)]

/-- `timetagger_testing` / `timetagger_status` job result (app.py:276-279,
287-292) and `timetagger_status_job` (app.py:448-449). -/
def testingPayload (chans : JVal) : JObj :=
  [("status", .jnum 200), ("test_enabled_channels", chans)]

/-- `timetagger_countrate` job result (app.py:313-317). -/
def countratePayload (rt rates : JVal) : JObj :=
  [("status", .jnum 200), ("recording_time", rt), ("channel_click_rate", rates)]

/-- `timetagger_coincidence` job result (app.py:344-350). -/
def coincidencePayload (groups rates rt cw : JVal) : JObj :=
  [("status", .jnum 200), ("virtual_groups", groups),
   ("coincidence_click_rate", rates), ("recording_time", rt),
   ("coincidence_window", cw)]

/-- `timetagger_correlation` job result (app.py:374-380). -/
def correlationPayload (tau counts rt ws : JVal) : JObj :=
  [("status", .jnum 200), ("tau_ps", tau), ("counts", counts),
   ("recording_time", rt), ("window_sec", ws)]

/-- `laser_control` job result (app.py:420). -/
def laserControlPayload (ps pw : JVal) : JObj :=
  [("status", .jnum 200), ("power_state", ps), ("power", pw)]

/-- `laser_status_job` (app.py:439-446):
`{"status": 200, **r.__dict__, "power": hw.stored_power}`; `extra` is the
device reading's attribute dict, whose keys override earlier ones. -/
def laserStatusPayload (extra : JObj) (pw : JVal) : JObj :=
  ("status", .jnum 200) :: extra ++ [("power", pw)]

/-- The bare `emit("connected")` acknowledgements (app.py:513, 526, 615,
691, 775): no payload at all. -/
def connectedPayload : Option JObj := none

/-- The `configured` success ack (app.py:636, 720, 803). -/
def configuredOkPayload : JObj := [("status", .jnum 200)]

/-- The `configured` failure ack (app.py:628, 639, 709, 723, 791, 806). -/
def configuredErrPayload (e : String) : JObj :=
  [("status", .jnum 400), ("error", .jstr e)]

/-- The `countrate` stream event (app.py:605-610). -/
def countrateEventPayload (rates : JVal) (ch : String) (rt : JVal) : JObj :=
  [("status", .jnum 200), ("rates", rates), ("ch", .jstr ch), ("rtime", rt)]

/-- The `coincidence` stream event (app.py:682-687): `{"status": 200, **p,
"rates": data}` with `p` the stored params. -/
def coincidenceEventPayload (groups cwin rt rates : JVal) : JObj :=
  [("status", .jnum 200), ("groups", groups), ("cwin", cwin), ("rtime", rt),
   ("rates", rates)]

/-- The `correlation` stream event (app.py:765-770). -/
def correlationEventPayload (ch bw nb rt tau counts : JVal) : JObj :=
  [("status", .jnum 200), ("ch", ch), ("bwidth", bw), ("nbins", nb),
   ("rtime", rt), ("tau_ps", tau), ("counts", counts)]

/-- Looking up the head key when no later binding shadows it. -/
theorem jget_head_of_not_shadowed (k : String) (v : JVal) (rest : JObj)
    (h : ∀ p ∈ rest, p.1 ≠ k) : jget ((k, v) :: rest) k = some v := by
  have h1 : List.find? (fun p => p.1 == k) rest.reverse = none := by
    rw [List.find?_eq_none]
    intro p hp
    rw [List.mem_reverse] at hp
    simpa using h p hp
  unfold jget
  rw [List.reverse_cons, List.find?_append, h1]
  simp

/-- C6 (counterexample): the claim fails on two counts.  The `connected`
socket acknowledgements are emitted with no payload at all, hence no
numeric `status` field; and the soft-error responses carry the failure
description under the key `"error"`, not `"message"` — there is no
`message` field anywhere in a 400 response. -/
theorem c6_counterexample :
    connectedPayload = none ∧
    jget (handleBadRequestPayload "boom") "message" = none ∧
    jget (handleBadRequestPayload "boom") "status" = some (.jnum 400) ∧
    jget (handleBadRequestPayload "boom") "error" = some (.jstr "boom") := by
  refine ⟨rfl, ?_, ?_, ?_⟩ <;> decide

/-- C6 (amended): every outward emission except the bare `connected`
acknowledgements carries a numeric `status` field — 200 for success
payloads and 400 for soft errors, the latter carrying the failure
description under the `error` key; for the laser status payload this holds
provided the device reading's attribute dict does not itself bind a
`status` key. -/
theorem c6_status_envelope :
    (∀ e, jget (handleBadRequestPayload e) "status" = some (.jnum 400) ∧
      jget (handleBadRequestPayload e) "error" = some (.jstr e)) ∧
    (∀ e, jget (handleExceptionPayload e) "status" = some (.jnum 400) ∧
      jget (handleExceptionPayload e) "error" = some (.jstr e)) ∧
    (∀ e, jget (configuredErrPayload e) "status" = some (.jnum 400) ∧
      jget (configuredErrPayload e) "error" = some (.jstr e)) ∧
    jget configuredOkPayload "status" = some (.jnum 200) ∧
    (∀ x, jget (testingPayload x) "status" = some (.jnum 200)) ∧
    (∀ a b, jget (countratePayload a b) "status" = some (.jnum 200)) ∧
    (∀ a b c d, jget (coincidencePayload a b c d) "status" = some (.jnum 200)) ∧
    (∀ a b c d, jget (correlationPayload a b c d) "status" = some (.jnum 200)) ∧
    (∀ a b, jget (laserControlPayload a b) "status" = some (.jnum 200)) ∧
    (∀ a c b, jget (countrateEventPayload a c b) "status" = some (.jnum 200)) ∧
    (∀ a b c d, jget (coincidenceEventPayload a b c d) "status" = some (.jnum 200)) ∧
    (∀ a b c d e f,
      jget (correlationEventPayload a b c d e f) "status" = some (.jnum 200)) ∧
    (∀ extra pw, (∀ p ∈ extra, p.1 ≠ "status") →
      jget (laserStatusPayload extra pw) "status" = some (.jnum 200)) := by
  refine ⟨fun e => ⟨rfl, rfl⟩, fun e => ⟨rfl, rfl⟩, fun e => ⟨rfl, rfl⟩, rfl,
    fun x => rfl, fun a b => rfl, fun a b c d => rfl, fun a b c d => rfl,
    fun a b => rfl, fun a c b => rfl, fun a b c d => rfl,
    fun a b c d e f => rfl, ?_⟩
  intro extra pw h
  refine jget_head_of_not_shadowed "status" (.jnum 200) (extra ++ [("power", pw)]) ?_
  intro p hp
  rcases List.mem_append.mp hp with hp | hp
  · exact h p hp
  · simp at hp
    rw [hp]
    simp

/-- C6 (witness): the laser status conjunct applied with a concrete device
reading dict. -/
theorem c6_status_envelope_witness :
    jget (laserStatusPayload [("power_state", .jstr "ON")] (.jnum 0)) "status" =
      some (.jnum 200) :=
  c6_status_envelope.2.2.2.2.2.2.2.2.2.2.2.2
    [("power_state", .jstr "ON")] (.jnum 0) (by decide)

end HardwareService
